import Mathlib

/-!
Shallow embedding of the date-range scheduler from
`internal/scheduler/scheduler.go` of immich-kiosk-scheduler.

Go `int` values are modelled as `Int`; Go strings as Lean `String`
(worked on as `List Char`); error returns as `Except` with structured
error values that carry exactly the information the Go error messages
interpolate (offending segment, entry name, which boundary failed).
`time.Time` arguments are modelled by the projected `(month, day)` pair,
which is all the Go code reads from them (`t.Month()`, `t.Day()`).
-/

namespace KioskScheduler

instance {ε α : Type} [DecidableEq ε] [DecidableEq α] : DecidableEq (Except ε α) := fun x y =>
  match x, y with
  | .error a, .error b =>
    if h : a = b then .isTrue (by rw [h]) else .isFalse (by simp [h])
  | .ok a, .ok b =>
    if h : a = b then .isTrue (by rw [h]) else .isFalse (by simp [h])
  | .error _, .ok _ => .isFalse (by simp)
  | .ok _, .error _ => .isFalse (by simp)

/-- Model of Go `strings.Split(s, "-")`: split at every occurrence of
the separator character, keeping empty segments. -/
def splitDash : List Char → List (List Char)
  | [] => [[]]
  | c :: rest =>
    let r := splitDash rest
    if c = '-' then [] :: r
    else
      match r with
      | [] => [[c]]
      | p :: ps => (c :: p) :: ps

def isAsciiDigit (c : Char) : Bool := '0' ≤ c && c ≤ '9'

def digitsToNat (ds : List Char) : Nat :=
  ds.foldl (fun a c => a * 10 + (c.toNat - '0'.toNat)) 0

/-- Model of Go `strconv.Atoi`: optional leading sign, then one or more
ASCII digits. (Go additionally errors on 64-bit overflow; callers here
range-check the result against [1,12] / [1,31] immediately, so on the
inputs reaching `ParseMonthDay` the overflow error and the out-of-range
rejection coincide.) -/
def atoi (cs : List Char) : Option Int :=
  let signed : Int × List Char :=
    match cs with
    | '+' :: rest => (1, rest)
    | '-' :: rest => (-1, rest)
    | _ => (1, cs)
  if !signed.2.isEmpty && signed.2.all isAsciiDigit then
    some (signed.1 * (digitsToNat signed.2 : Int))
  else
    none

/-- Structured counterpart of the three error messages produced by
`ParseMonthDay`: each constructor records which sub-check failed and the
offending text, exactly what the Go message interpolates. -/
inductive ParseError where
  | invalidFormat (s : String)
  | invalidMonth (part : String)
  | invalidDay (part : String)
  deriving DecidableEq, Repr

/-- `ParseMonthDay` from scheduler.go: split on "-", require exactly two
segments, Atoi each, require month in [1,12] and day in [1,31]. -/
def ParseMonthDay (s : String) : Except ParseError (Int × Int) :=
  match splitDash s.data with
  | [p0, p1] =>
    match atoi p0 with
    | none => .error (.invalidMonth (String.mk p0))
    | some month =>
      if month < 1 ∨ month > 12 then .error (.invalidMonth (String.mk p0))
      else
        match atoi p1 with
        | none => .error (.invalidDay (String.mk p1))
        | some day =>
          if day < 1 ∨ day > 31 then .error (.invalidDay (String.mk p1))
          else .ok (month, day)
  | _ => .error (.invalidFormat s)

/-- The fixed month-length table from `monthDayToDOY` (index 0 unused,
February always 29). -/
def daysInMonth : List Int := [0, 31, 29, 31, 30, 31, 30, 31, 31, 30, 31, 30, 31]

/-- `monthDayToDOY` from scheduler.go: the loop `for m := 1; m < month`
accumulates `daysInMonth[m]`, then adds `day`. -/
def monthDayToDOY (month day : Int) : Int :=
  (List.range' 1 (month - 1).toNat).foldl (fun doy m => doy + daysInMonth.getD m 0) 0 + day

/-- `isYearWrap` from scheduler.go. -/
def isYearWrap (startMonth startDay endMonth endDay : Int) : Bool :=
  monthDayToDOY endMonth endDay < monthDayToDOY startMonth startDay

/-- `dateRange` struct from scheduler.go. -/
structure dateRange where
  name : String
  album : String
  startMonth : Int
  startDay : Int
  endMonth : Int
  endDay : Int
  wrapsYear : Bool
  deriving DecidableEq, Repr

/-- `config.ScheduleEntry` as used by scheduler.go (fields `Name`,
`Album`, `Start`, `End`). -/
structure ScheduleEntry where
  Name : String
  Album : String
  Start : String
  End : String
  deriving DecidableEq, Repr

/-- `config.Config` as used by scheduler.go (fields `DefaultAlbum`,
`Schedule`). -/
structure Config where
  DefaultAlbum : String
  Schedule : List ScheduleEntry
  deriving DecidableEq, Repr

/-- `Scheduler` struct from scheduler.go. -/
structure Scheduler where
  defaultAlbum : String
  ranges : List dateRange
  deriving DecidableEq, Repr

/-- Structured counterpart of the two construction errors of `New`:
`invalid start date for %q: %w` and `invalid end date for %q: %w`, each
carrying the entry name and the wrapped parse error. -/
inductive BuildError where
  | invalidStart (name : String) (e : ParseError)
  | invalidEnd (name : String) (e : ParseError)
  deriving DecidableEq, Repr

/-- The loop body of `New`: process entries in order, abort on the first
boundary that fails to parse, otherwise append the compiled range. -/
def buildRanges : List ScheduleEntry → Except BuildError (List dateRange)
  | [] => .ok []
  | entry :: rest =>
    match ParseMonthDay entry.Start with
    | .error err => .error (.invalidStart entry.Name err)
    | .ok (startMonth, startDay) =>
      match ParseMonthDay entry.End with
      | .error err => .error (.invalidEnd entry.Name err)
      | .ok (endMonth, endDay) =>
        match buildRanges rest with
        | .error e => .error e
        | .ok rs =>
          .ok ({ name := entry.Name, album := entry.Album,
                 startMonth := startMonth, startDay := startDay,
                 endMonth := endMonth, endDay := endDay,
                 wrapsYear := isYearWrap startMonth startDay endMonth endDay } :: rs)

/-- `New` from scheduler.go. -/
def New (cfg : Config) : Except BuildError Scheduler :=
  match buildRanges cfg.Schedule with
  | .error e => .error e
  | .ok rs => .ok { defaultAlbum := cfg.DefaultAlbum, ranges := rs }

/-- `dateInRange` from scheduler.go: recomputes both boundary ordinals
from the stored month/day fields on every call. -/
def dateInRange (currentDOY : Int) (r : dateRange) : Bool :=
  let startDOY := monthDayToDOY r.startMonth r.startDay
  let endDOY := monthDayToDOY r.endMonth r.endDay
  if r.wrapsYear then
    currentDOY ≥ startDOY || currentDOY ≤ endDOY
  else
    currentDOY ≥ startDOY && currentDOY ≤ endDOY

/-- The range-scanning loop shared by `GetAlbumForDate` and
`GetScheduleNameForDate`: first match wins, `none` if nothing matches. -/
def findRange (currentDOY : Int) : List dateRange → Option dateRange
  | [] => none
  | r :: rest => if dateInRange currentDOY r then some r else findRange currentDOY rest

/-- `GetAlbumForDate` from scheduler.go, with the `time.Time` argument
replaced by the `(month, day)` pair the Go code projects out of it. -/
def GetAlbumForDate (s : Scheduler) (month day : Int) : String :=
  match findRange (monthDayToDOY month day) s.ranges with
  | some r => r.album
  | none => s.defaultAlbum

/-- `GetScheduleNameForDate` from scheduler.go. -/
def GetScheduleNameForDate (s : Scheduler) (month day : Int) : String :=
  match findRange (monthDayToDOY month day) s.ranges with
  | some r => r.name
  | none => "default"

/-- `GetDefaultAlbum` from scheduler.go. -/
def GetDefaultAlbum (s : Scheduler) : String := s.defaultAlbum

/-- `GetScheduleCount` from scheduler.go. -/
def GetScheduleCount (s : Scheduler) : Int := s.ranges.length

/-! Spec-side model, written from the specification text (not from the
source), used to state the refinement claim: the spec's `CompiledRange`
caches `startDOY`/`endDOY` once at construction, while the source's
`dateInRange` recomputes them from the stored month/day at every lookup. -/

/-- The spec's `CompiledRange` record: boundary ordinals computed once
and cached. -/
structure CompiledRange where
  name : String
  value : String
  startDOY : Int
  endDOY : Int
  wrapsYear : Bool
  deriving DecidableEq, Repr

/-- Compile a source-level `dateRange` to the spec's cached form. -/
def compileRange (r : dateRange) : CompiledRange :=
  { name := r.name,
    value := r.album,
    startDOY := monthDayToDOY r.startMonth r.startDay,
    endDOY := monthDayToDOY r.endMonth r.endDay,
    wrapsYear := r.wrapsYear }

/-- The spec's membership predicate over a cached `CompiledRange`. -/
def compiledInRange (currentDOY : Int) (cr : CompiledRange) : Bool :=
  if cr.wrapsYear then
    currentDOY ≥ cr.startDOY || currentDOY ≤ cr.endDOY
  else
    currentDOY ≥ cr.startDOY && currentDOY ≤ cr.endDOY

/-- The spec's `MatchValue`: scan cached ranges in order, first match
wins, default on no match. -/
def MatchValue (defaultValue : String) (crs : List CompiledRange) (currentDOY : Int) : String :=
  match crs.find? (fun cr => compiledInRange currentDOY cr) with
  | some cr => cr.value
  | none => defaultValue

/-- The spec's `MatchName`: like `MatchValue` but returns the range name
or the sentinel "default". -/
def MatchName (crs : List CompiledRange) (currentDOY : Int) : String :=
  match crs.find? (fun cr => compiledInRange currentDOY cr) with
  | some cr => cr.name
  | none => "default"

/-- The compiled range `New` produces for an entry whose two boundaries
both parse (`none` when either fails); used to state what a successful
construction returns. -/
def compileEntry (e : ScheduleEntry) : Option dateRange :=
  match ParseMonthDay e.Start, ParseMonthDay e.End with
  | .ok (startMonth, startDay), .ok (endMonth, endDay) =>
    some { name := e.Name, album := e.Album,
           startMonth := startMonth, startDay := startDay,
           endMonth := endMonth, endDay := endDay,
           wrapsYear := isYearWrap startMonth startDay endMonth endDay }
  | _, _ => none

/-- A construction error correctly identifies an offending entry: it
names an entry of the schedule and the boundary of that entry whose
parse fails, carrying that boundary's parse error. -/
def errDescribes (cfg : Config) : BuildError → Prop
  | .invalidStart name pe =>
    ∃ e ∈ cfg.Schedule, e.Name = name ∧ ParseMonthDay e.Start = .error pe
  | .invalidEnd name pe =>
    ∃ e ∈ cfg.Schedule, e.Name = name ∧ ParseMonthDay e.End = .error pe


/-! Concrete fixtures used by witnesses and counterexamples. -/

/-- The overlap-precedence configuration from the spec: a narrow
"special" range declared before a broad wrapping "christmas" range. -/
def xmasCfg : Config :=
  { DefaultAlbum := "default-album",
    Schedule := [
      { Name := "special", Album := "special-album", Start := "12-20", End := "12-26" },
      { Name := "christmas", Album := "christmas-album", Start := "11-15", End := "01-01" } ] }

def specialRange : dateRange :=
  { name := "special", album := "special-album", startMonth := 12, startDay := 20,
    endMonth := 12, endDay := 26, wrapsYear := false }

def christmasRange : dateRange :=
  { name := "christmas", album := "christmas-album", startMonth := 11, startDay := 15,
    endMonth := 1, endDay := 1, wrapsYear := true }

def xmasSched : Scheduler :=
  { defaultAlbum := "default-album", ranges := [specialRange, christmasRange] }

/-- A configuration whose single entry has an unparseable start boundary. -/
def badCfg : Config :=
  { DefaultAlbum := "d",
    Schedule := [ { Name := "xmas", Album := "a", Start := "13-01", End := "01-02" } ] }

/-- A zero-width range: start and end boundaries share one ordinal. -/
def singleDayRange : dateRange :=
  { name := "solstice", album := "solstice-album", startMonth := 6, startDay := 21,
    endMonth := 6, endDay := 21, wrapsYear := isYearWrap 6 21 6 21 }

def emptyCfg : Config := { DefaultAlbum := "fallback", Schedule := [] }

def emptySched : Scheduler := { defaultAlbum := "fallback", ranges := [] }

/-! Helper lemmas about the range scan and construction loop. -/

theorem findRange_eq_none (doy : Int) (l : List dateRange)
    (h : ∀ r ∈ l, dateInRange doy r = false) : findRange doy l = none := by
  induction l with
  | nil => rfl
  | cons r rest ih =>
    have hr := h r (List.mem_cons_self r rest)
    simp [findRange, hr]
    exact ih (fun x hx => h x (List.mem_cons_of_mem r hx))

theorem findRange_eq_get (doy : Int) :
    ∀ (l : List dateRange) (i : Nat) (hi : i < l.length),
      dateInRange doy (l.get ⟨i, hi⟩) = true →
      (∀ j (hj : j < i), dateInRange doy (l.get ⟨j, Nat.lt_trans hj hi⟩) = false) →
      findRange doy l = some (l.get ⟨i, hi⟩)
  | r :: rest, 0, _, hm, _ => by simp [findRange, List.get] at hm ⊢; simp [hm]
  | r :: rest, i + 1, hi, hm, hfirst => by
    have h0 : dateInRange doy r = false := hfirst 0 (Nat.succ_pos i)
    have hrec := findRange_eq_get doy rest i (Nat.lt_of_succ_lt_succ hi) hm
      (fun j hj => hfirst (j + 1) (Nat.succ_lt_succ hj))
    simp [findRange, h0]
    exact hrec

theorem New_ok_elim {cfg : Config} {s : Scheduler} (h : New cfg = .ok s) :
    s.defaultAlbum = cfg.DefaultAlbum ∧ buildRanges cfg.Schedule = .ok s.ranges := by
  unfold New at h
  split at h
  · exact absurd h (by simp)
  · rename_i rs hrs
    cases h
    exact ⟨rfl, hrs⟩

theorem New_error_elim {cfg : Config} {err : BuildError} (h : New cfg = .error err) :
    buildRanges cfg.Schedule = .error err := by
  unfold New at h
  split at h
  · rename_i e he
    cases h
    exact he
  · exact absurd h (by simp)

theorem buildRanges_wrapsYear :
    ∀ {entries : List ScheduleEntry} {rs : List dateRange},
      buildRanges entries = .ok rs →
      ∀ r ∈ rs, r.wrapsYear = isYearWrap r.startMonth r.startDay r.endMonth r.endDay := by
  intro entries
  induction entries with
  | nil =>
    intro rs h r hr
    simp [buildRanges] at h
    subst h
    exact absurd hr (List.not_mem_nil r)
  | cons e rest ih =>
    intro rs h r hr
    unfold buildRanges at h
    split at h
    · exact absurd h (by simp)
    · rename_i sm sd hps
      split at h
      · exact absurd h (by simp)
      · rename_i em ed hpe
        split at h
        · exact absurd h (by simp)
        · rename_i rs0 hrs0
          cases h
          rcases List.mem_cons.mp hr with hhead | htail
          · subst hhead; rfl
          · exact ih hrs0 r htail

theorem buildRanges_all_ok :
    ∀ {entries : List ScheduleEntry},
      (∀ e ∈ entries, (ParseMonthDay e.Start).isOk = true ∧ (ParseMonthDay e.End).isOk = true) →
      buildRanges entries = .ok (entries.filterMap compileEntry) := by
  intro entries
  induction entries with
  | nil => intro _; rfl
  | cons e rest ih =>
    intro h
    have he := h e (List.mem_cons_self e rest)
    have hrest := ih (fun x hx => h x (List.mem_cons_of_mem e hx))
    unfold buildRanges
    cases hps : ParseMonthDay e.Start with
    | error err => rw [hps] at he; simp [Except.isOk, Except.toBool] at he
    | ok p =>
      cases hpe : ParseMonthDay e.End with
      | error err => rw [hpe] at he; simp [Except.isOk, Except.toBool] at he
      | ok q =>
        obtain ⟨sm, sd⟩ := p
        obtain ⟨em, ed⟩ := q
        rw [hrest]
        simp [List.filterMap_cons, compileEntry, hps, hpe]

theorem buildRanges_ok_all_parse :
    ∀ {entries : List ScheduleEntry} {rs : List dateRange},
      buildRanges entries = .ok rs →
      ∀ e ∈ entries, (ParseMonthDay e.Start).isOk = true ∧ (ParseMonthDay e.End).isOk = true := by
  intro entries
  induction entries with
  | nil => intro rs _ e he; exact absurd he (List.not_mem_nil e)
  | cons e0 rest ih =>
    intro rs h e he
    unfold buildRanges at h
    split at h
    · exact absurd h (by simp)
    · rename_i sm sd hps
      split at h
      · exact absurd h (by simp)
      · rename_i em ed hpe
        split at h
        · exact absurd h (by simp)
        · rename_i rs0 hrs0
          rcases List.mem_cons.mp he with hhead | htail
          · subst hhead
            exact ⟨by simp [hps, Except.isOk, Except.toBool], by simp [hpe, Except.isOk, Except.toBool]⟩
          · exact ih hrs0 e htail

theorem buildRanges_error_describes :
    ∀ {entries : List ScheduleEntry} {err : BuildError},
      buildRanges entries = .error err →
      (∃ name pe, (err = .invalidStart name pe ∧
          ∃ e ∈ entries, e.Name = name ∧ ParseMonthDay e.Start = .error pe) ∨
        (err = .invalidEnd name pe ∧
          ∃ e ∈ entries, e.Name = name ∧ ParseMonthDay e.End = .error pe)) := by
  intro entries
  induction entries with
  | nil => intro err h; simp [buildRanges] at h
  | cons e0 rest ih =>
    intro err h
    unfold buildRanges at h
    split at h
    · rename_i perr hps
      cases h
      exact ⟨e0.Name, perr, Or.inl ⟨rfl, e0, List.mem_cons_self e0 rest, rfl, hps⟩⟩
    · rename_i sm sd hps
      split at h
      · rename_i perr hpe
        cases h
        exact ⟨e0.Name, perr, Or.inr ⟨rfl, e0, List.mem_cons_self e0 rest, rfl, hpe⟩⟩
      · rename_i em ed hpe
        split at h
        · rename_i e2 he2
          cases h
          obtain ⟨name, pe, hcase⟩ := ih he2
          refine ⟨name, pe, ?_⟩
          rcases hcase with ⟨heq, e, hmem, hrest⟩ | ⟨heq, e, hmem, hrest⟩
          · exact Or.inl ⟨heq, e, List.mem_cons_of_mem e0 hmem, hrest⟩
          · exact Or.inr ⟨heq, e, List.mem_cons_of_mem e0 hmem, hrest⟩
        · exact absurd h (by simp)

theorem parse_ok_characterization (s : String) (m d : Int) :
    ParseMonthDay s = .ok (m, d) ↔
      ∃ p0 p1, splitDash s.data = [p0, p1] ∧
        atoi p0 = some m ∧ 1 ≤ m ∧ m ≤ 12 ∧
        atoi p1 = some d ∧ 1 ≤ d ∧ d ≤ 31 := by
  constructor
  · intro h
    unfold ParseMonthDay at h
    split at h
    · rename_i p0 p1 hsplit
      split at h
      · exact absurd h (by simp)
      · rename_i month ha0
        split at h
        · exact absurd h (by simp)
        · rename_i hmBounds
          split at h
          · exact absurd h (by simp)
          · rename_i day ha1
            split at h
            · exact absurd h (by simp)
            · rename_i hdBounds
              cases h
              push_neg at hmBounds hdBounds
              exact ⟨p0, p1, hsplit, ha0, hmBounds.1, hmBounds.2, ha1, hdBounds.1, hdBounds.2⟩
    · exact absurd h (by simp)
  · rintro ⟨p0, p1, hsplit, ha0, hm1, hm2, ha1, hd1, hd2⟩
    unfold ParseMonthDay
    rw [hsplit]
    dsimp only
    rw [ha0]
    dsimp only
    rw [if_neg (by omega)]
    rw [ha1]
    dsimp only
    rw [if_neg (by omega)]


/-- Claim C1: for every range compiled by `New`, the `wrapsYear` flag is
true iff the end boundary's ordinal is strictly smaller than the start
boundary's ordinal, and the range matches a day-of-year exactly by the
inclusive wrap formula (`currentDOY >= startDOY OR currentDOY <= endDOY`
when wrapping, `AND` otherwise). -/
theorem wrap_flag_and_match_formula (cfg : Config) (s : Scheduler) (hnew : New cfg = .ok s)
    (r : dateRange) (hr : r ∈ s.ranges) :
    (r.wrapsYear = true ↔
      monthDayToDOY r.endMonth r.endDay < monthDayToDOY r.startMonth r.startDay)
    ∧ (∀ currentDOY : Int, r.wrapsYear = true →
        (dateInRange currentDOY r = true ↔
          (monthDayToDOY r.startMonth r.startDay ≤ currentDOY ∨
           currentDOY ≤ monthDayToDOY r.endMonth r.endDay)))
    ∧ (∀ currentDOY : Int, r.wrapsYear = false →
        (dateInRange currentDOY r = true ↔
          (monthDayToDOY r.startMonth r.startDay ≤ currentDOY ∧
           currentDOY ≤ monthDayToDOY r.endMonth r.endDay))) := by
  have hwrap := buildRanges_wrapsYear (New_ok_elim hnew).2 r hr
  refine ⟨?_, ?_, ?_⟩
  · rw [hwrap]
    simp [isYearWrap]
  · intro doy hw
    unfold dateInRange
    rw [hw]
    simp [ge_iff_le]
  · intro doy hw
    unfold dateInRange
    rw [hw]
    simp [ge_iff_le]

theorem wrap_flag_and_match_formula_witness :
    (christmasRange.wrapsYear = true ↔
      monthDayToDOY christmasRange.endMonth christmasRange.endDay <
        monthDayToDOY christmasRange.startMonth christmasRange.startDay)
    ∧ (dateInRange 360 christmasRange = true ↔
        (monthDayToDOY christmasRange.startMonth christmasRange.startDay ≤ 360 ∨
         (360 : Int) ≤ monthDayToDOY christmasRange.endMonth christmasRange.endDay)) :=
  ⟨(wrap_flag_and_match_formula xmasCfg xmasSched (by decide) christmasRange (by decide)).1,
   (wrap_flag_and_match_formula xmasCfg xmasSched (by decide) christmasRange (by decide)).2.1
     360 rfl⟩

/-- Claim C2: whenever index `i` is the earliest range matching the
lookup date, `GetAlbumForDate` returns that range's album and
`GetScheduleNameForDate` its name — declaration order alone decides
overlaps, regardless of width, specificity or wrap status. -/
theorem first_match_wins (s : Scheduler) (month day : Int) (i : Nat)
    (hi : i < s.ranges.length)
    (hmatch : dateInRange (monthDayToDOY month day) (s.ranges.get ⟨i, hi⟩) = true)
    (hfirst : ∀ j (hj : j < i),
      dateInRange (monthDayToDOY month day) (s.ranges.get ⟨j, Nat.lt_trans hj hi⟩) = false) :
    GetAlbumForDate s month day = (s.ranges.get ⟨i, hi⟩).album
    ∧ GetScheduleNameForDate s month day = (s.ranges.get ⟨i, hi⟩).name := by
  have hfind := findRange_eq_get (monthDayToDOY month day) s.ranges i hi hmatch hfirst
  constructor
  · unfold GetAlbumForDate
    rw [hfind]
  · unfold GetScheduleNameForDate
    rw [hfind]

theorem first_match_wins_witness :
    GetAlbumForDate xmasSched 11 20 = "christmas-album"
    ∧ GetScheduleNameForDate xmasSched 11 20 = "christmas" := by
  exact first_match_wins xmasSched 11 20 1 (by decide) (by decide)
    (fun j hj =>
      match j, hj with
      | 0, _ => show dateInRange (monthDayToDOY 11 20) specialRange = false by decide)

/-- Claim C5: for every successfully constructed scheduler and date on
which no range matches, `GetAlbumForDate` returns the configured default
value and `GetScheduleNameForDate` returns the sentinel "default" — the
lookups never fail. -/
theorem lookup_total_default (cfg : Config) (s : Scheduler) (hnew : New cfg = .ok s)
    (month day : Int)
    (hnone : ∀ r ∈ s.ranges, dateInRange (monthDayToDOY month day) r = false) :
    GetAlbumForDate s month day = cfg.DefaultAlbum
    ∧ GetScheduleNameForDate s month day = "default" := by
  have hfind := findRange_eq_none (monthDayToDOY month day) s.ranges hnone
  have hdef := (New_ok_elim hnew).1
  constructor
  · unfold GetAlbumForDate
    rw [hfind]
    exact hdef
  · unfold GetScheduleNameForDate
    rw [hfind]

theorem lookup_total_default_witness :
    GetAlbumForDate emptySched 7 4 = "fallback"
    ∧ GetScheduleNameForDate emptySched 7 4 = "default" := by
  exact lookup_total_default emptyCfg emptySched (by decide) 7 4
    (fun r hr => absurd hr (List.not_mem_nil r))

set_option maxHeartbeats 1000000 in
/-- Claim C3: for every month in [1,12] and day in [1,31],
`monthDayToDOY` returns the sum of the fixed table
[31,29,31,30,31,30,31,31,30,31,30,31] over months 1..month-1 plus day
(February always 29), and the result lies in [1, 366]. -/
theorem toOrdinal_table_sum_and_bounds (month day : Int)
    (hm1 : 1 ≤ month) (hm2 : month ≤ 12) (hd1 : 1 ≤ day) (hd2 : day ≤ 31) :
    monthDayToDOY month day =
      (([31, 29, 31, 30, 31, 30, 31, 31, 30, 31, 30, 31] : List Int).take (month - 1).toNat).sum + day
    ∧ 1 ≤ monthDayToDOY month day ∧ monthDayToDOY month day ≤ 366 := by
  interval_cases month <;> simp [monthDayToDOY, daysInMonth, List.range'] <;> omega

theorem toOrdinal_table_sum_and_bounds_witness :
    monthDayToDOY 12 31 =
      (([31, 29, 31, 30, 31, 30, 31, 31, 30, 31, 30, 31] : List Int).take ((12 : Int) - 1).toNat).sum + 31
    ∧ 1 ≤ monthDayToDOY 12 31 ∧ monthDayToDOY 12 31 ≤ 366 :=
  toOrdinal_table_sum_and_bounds 12 31 (by norm_num) (by norm_num) (by norm_num) (by norm_num)

/-- Claim C4, counterexample: strict monotonicity along calendar order
fails over all pairs with month in [1,12], day in [1,31]: (2,31) is
calendar-earlier than (3,1), yet `monthDayToDOY 2 31 = 62 > 61 =
monthDayToDOY 3 1`. -/
theorem toOrdinal_monotone_counterexample :
    ¬ (∀ m1 d1 m2 d2 : Int,
        1 ≤ m1 → m1 ≤ 12 → 1 ≤ d1 → d1 ≤ 31 →
        1 ≤ m2 → m2 ≤ 12 → 1 ≤ d2 → d2 ≤ 31 →
        (m1 < m2 ∨ (m1 = m2 ∧ d1 < d2)) →
        monthDayToDOY m1 d1 < monthDayToDOY m2 d2) := by
  intro h
  have h2 := h 2 31 3 1 (by norm_num) (by norm_num) (by norm_num) (by norm_num)
    (by norm_num) (by norm_num) (by norm_num) (by norm_num) (Or.inl (by norm_num))
  have e1 : monthDayToDOY 2 31 = 62 := by decide
  have e2 : monthDayToDOY 3 1 = 61 := by decide
  omega

set_option maxHeartbeats 1000000 in
/-- Claim C4, amended: strict monotonicity along calendar order holds
for pairs whose day is valid for its month within the fixed 366-day
template (day <= daysInMonth[month]); equal pairs map to equal
ordinals. -/
theorem toOrdinal_monotone_template_valid (m1 d1 m2 d2 : Int)
    (hm1 : 1 ≤ m1) (hm1b : m1 ≤ 12) (hd1 : 1 ≤ d1) (hd1b : d1 ≤ 31)
    (hm2 : 1 ≤ m2) (hm2b : m2 ≤ 12) (hd2 : 1 ≤ d2) (hd2b : d2 ≤ 31)
    (hv1 : d1 ≤ daysInMonth.getD m1.toNat 0) (hv2 : d2 ≤ daysInMonth.getD m2.toNat 0) :
    ((m1 < m2 ∨ (m1 = m2 ∧ d1 < d2)) → monthDayToDOY m1 d1 < monthDayToDOY m2 d2)
    ∧ (m1 = m2 → d1 = d2 → monthDayToDOY m1 d1 = monthDayToDOY m2 d2) := by
  constructor
  · intro hlt
    interval_cases m1 <;> interval_cases m2 <;>
      simp_all [monthDayToDOY, List.range', daysInMonth] <;> omega
  · intro h1 h2
    rw [h1, h2]

theorem toOrdinal_monotone_template_valid_witness :
    monthDayToDOY 2 29 < monthDayToDOY 3 1 :=
  (toOrdinal_monotone_template_valid 2 29 3 1 (by norm_num) (by norm_num) (by norm_num)
    (by norm_num) (by norm_num) (by norm_num) (by norm_num) (by norm_num)
    (by decide) (by decide)).1 (Or.inl (by norm_num))

/-- Claim C6: construction is all-or-nothing: if every boundary parses,
`New` succeeds and the compiled ranges are exactly the entries compiled
in input order; if any boundary fails to parse, `New` returns no
scheduler, and every construction error names an entry of the schedule
and the boundary (start or end) of that entry whose parse fails. -/
theorem new_all_or_nothing (cfg : Config) :
    ((∀ e ∈ cfg.Schedule,
        (ParseMonthDay e.Start).isOk = true ∧ (ParseMonthDay e.End).isOk = true) →
      New cfg = .ok { defaultAlbum := cfg.DefaultAlbum,
                      ranges := cfg.Schedule.filterMap compileEntry })
    ∧ ((∃ e ∈ cfg.Schedule,
        (ParseMonthDay e.Start).isOk = false ∨ (ParseMonthDay e.End).isOk = false) →
      (New cfg).isOk = false)
    ∧ (∀ err, New cfg = .error err → errDescribes cfg err) := by
  refine ⟨?_, ?_, ?_⟩
  · intro h
    unfold New
    rw [buildRanges_all_ok h]
  · rintro ⟨e, he, hbad⟩
    cases hnew : New cfg with
    | error err => simp [Except.isOk, Except.toBool]
    | ok s =>
      have hall := buildRanges_ok_all_parse (New_ok_elim hnew).2 e he
      rcases hbad with hb | hb
      · rw [hall.1] at hb
        cases hb
      · rw [hall.2] at hb
        cases hb
  · intro err herr
    obtain ⟨name, pe, hcase⟩ := buildRanges_error_describes (New_error_elim herr)
    rcases hcase with ⟨heq, hex⟩ | ⟨heq, hex⟩
    · subst heq
      exact hex
    · subst heq
      exact hex

theorem new_all_or_nothing_witness : (New badCfg).isOk = false :=
  (new_all_or_nothing badCfg).2.1
    ⟨{ Name := "xmas", Album := "a", Start := "13-01", End := "01-02" },
     by decide, Or.inl (by decide)⟩

/-- Claim C7: `ParseMonthDay` succeeds exactly when the input splits on
"-" into two segments that Atoi-parse to month in [1,12] and day in
[1,31]; "11-15" parses to (11,15), while "2024-11-15", "13-01" and
"01-32" fail with errors identifying the failed sub-check. -/
theorem parse_month_day_spec :
    (∀ (s : String) (m d : Int),
      ParseMonthDay s = .ok (m, d) ↔
        ∃ p0 p1, splitDash s.data = [p0, p1] ∧
          atoi p0 = some m ∧ 1 ≤ m ∧ m ≤ 12 ∧
          atoi p1 = some d ∧ 1 ≤ d ∧ d ≤ 31)
    ∧ ParseMonthDay "11-15" = .ok (11, 15)
    ∧ ParseMonthDay "2024-11-15" = .error (.invalidFormat "2024-11-15")
    ∧ ParseMonthDay "13-01" = .error (.invalidMonth "13")
    ∧ ParseMonthDay "01-32" = .error (.invalidDay "32") :=
  ⟨parse_ok_characterization, by decide, by decide, by decide, by decide⟩

theorem parse_month_day_spec_witness : ParseMonthDay "03-07" = .ok (3, 7) :=
  (parse_month_day_spec.1 "03-07" 3 7).mpr
    ⟨['0', '3'], ['0', '7'], by decide, by decide, by norm_num, by norm_num,
     by decide, by norm_num, by norm_num⟩

/-- Claim C8: a compiled range whose start and end boundaries share one
ordinal is non-wrapping and matches exactly the day-of-year equal to
that shared ordinal. -/
theorem single_day_range (r : dateRange)
    (hw : r.wrapsYear = isYearWrap r.startMonth r.startDay r.endMonth r.endDay)
    (heq : monthDayToDOY r.startMonth r.startDay = monthDayToDOY r.endMonth r.endDay) :
    r.wrapsYear = false
    ∧ ∀ doy : Int,
        (dateInRange doy r = true ↔ doy = monthDayToDOY r.startMonth r.startDay) := by
  have hwf : r.wrapsYear = false := by
    rw [hw]
    simp [isYearWrap, heq]
  refine ⟨hwf, ?_⟩
  intro doy
  unfold dateInRange
  rw [hwf]
  simp only [Bool.false_eq_true, if_false, Bool.and_eq_true, decide_eq_true_eq, ge_iff_le]
  constructor
  · rintro ⟨h1, h2⟩
    omega
  · intro h
    omega

theorem single_day_range_witness :
    singleDayRange.wrapsYear = false
    ∧ dateInRange (monthDayToDOY 6 21) singleDayRange = true :=
  ⟨(single_day_range singleDayRange rfl rfl).1,
   ((single_day_range singleDayRange rfl rfl).2 (monthDayToDOY 6 21)).mpr rfl⟩

/-- Claim C9: recomputing boundary ordinals at every lookup (as
`dateInRange` does) is observationally equal to the spec's compile-once
model: the membership predicate agrees range-wise with
`compiledInRange` over cached `CompiledRange` values, and the two
lookups agree with the spec's `MatchValue` / `MatchName` over the
compiled list. -/
theorem recompute_refines_cached (s : Scheduler) (month day : Int) :
    (∀ r ∈ s.ranges, ∀ doy : Int,
      dateInRange doy r = compiledInRange doy (compileRange r))
    ∧ GetAlbumForDate s month day =
        MatchValue s.defaultAlbum (s.ranges.map compileRange) (monthDayToDOY month day)
    ∧ GetScheduleNameForDate s month day =
        MatchName (s.ranges.map compileRange) (monthDayToDOY month day) := by
  have hfind : ∀ (l : List dateRange) (doy : Int),
      (l.map compileRange).find? (fun cr => compiledInRange doy cr) =
        (findRange doy l).map compileRange := by
    intro l doy
    induction l with
    | nil => rfl
    | cons r rest ih =>
      cases h : dateInRange doy r with
      | true =>
        rw [List.map_cons,
          List.find?_cons_of_pos (List.map compileRange rest)
            (show (fun cr => compiledInRange doy cr) (compileRange r) = true from h)]
        simp [findRange, h]
      | false =>
        have hneg : ¬ ((fun cr => compiledInRange doy cr) (compileRange r) = true) := by
          intro hc
          have hc2 : dateInRange doy r = true := hc
          rw [h] at hc2
          cases hc2
        rw [List.map_cons, List.find?_cons_of_neg (List.map compileRange rest) hneg]
        simp [findRange, h, ih]
  refine ⟨fun r _ doy => rfl, ?_, ?_⟩
  · unfold GetAlbumForDate MatchValue
    rw [hfind]
    cases findRange (monthDayToDOY month day) s.ranges with
    | some r => rfl
    | none => rfl
  · unfold GetScheduleNameForDate MatchName
    rw [hfind]
    cases findRange (monthDayToDOY month day) s.ranges with
    | some r => rfl
    | none => rfl

theorem recompute_refines_cached_witness :
    GetAlbumForDate xmasSched 12 25 =
      MatchValue "default-album" (xmasSched.ranges.map compileRange) (monthDayToDOY 12 25) := by
  exact (recompute_refines_cached xmasSched 12 25).2.1

/-- Claim C10: `ParseMonthDay` does not require zero-padded two-digit
segments: "1-5" parses to (1,5) and "+5-10" (leading plus) to (5,10);
only the segment count and the numeric bounds are checked. -/
theorem parse_no_shape_check :
    ParseMonthDay "1-5" = .ok (1, 5)
    ∧ ParseMonthDay "+5-10" = .ok (5, 10)
    ∧ (∀ (s : String) (m d : Int),
        ParseMonthDay s = .ok (m, d) ↔
          ∃ p0 p1, splitDash s.data = [p0, p1] ∧
            atoi p0 = some m ∧ 1 ≤ m ∧ m ≤ 12 ∧
            atoi p1 = some d ∧ 1 ≤ d ∧ d ≤ 31) :=
  ⟨by decide, by decide, parse_ok_characterization⟩

theorem parse_no_shape_check_witness : ParseMonthDay "+7-9" = .ok (7, 9) :=
  (parse_no_shape_check.2.2 "+7-9" 7 9).mpr
    ⟨['+', '7'], ['9'], by decide, by decide, by norm_num, by norm_num,
     by decide, by norm_num, by norm_num⟩

end KioskScheduler
